import Mathlib

/-!
Verification of the Life Tracker client against its natural-language
specification.  The development shallowly embeds the TypeScript source:

* `src/App.tsx` — the in-memory document (`AppData`), the mutation handlers
  `toggleTodo`, `toggleHabit`, `toggleNonNegotiable`, and the persistence
  behaviour of `updateData` (an immediate whole-document save per mutation).
* `src/oni/services/dbTemplate.ts` — the static document template.
* `src/unnamed/part_001` (the Supabase `StorageService`) — `getUserData`,
  `exportDatabase`, `importDatabase`.
* `src/services/geminiService.ts` — `handleError` and `chatWithAI`.
* `src/services/imageService.ts` — `uploadFile`.

JavaScript objects are modelled as association lists in insertion order,
JSON values as the inductive `Json`, and JavaScript truthiness as `truthy`.
-/

/-! ## JavaScript string / object primitives -/

/-- JavaScript `s.includes(pat)`: `pat` occurs contiguously inside `s`. -/
def jsIncludes (s pat : String) : Bool :=
  decide (pat.data <:+: s.data)

/-- JavaScript `x || dflt` for a possibly-undefined string `x`: the empty
string is falsy, so it also falls back to the default. -/
def jsOrStr (x : Option String) (dflt : String) : String :=
  match x with
  | some s => if s = "" then dflt else s
  | none => dflt

/-- Key lookup in a JavaScript object modelled as an association list
(first match wins; objects built by the source never repeat a key). -/
def lookupEntry {α : Type} : List (String × α) → String → Option α
  | [], _ => none
  | (k, v) :: rest, key => if k = key then some v else lookupEntry rest key

/-- JavaScript property assignment `obj[key] = v` (and the spread-with-
override `{...obj, [key]: v}`): an existing key keeps its position and gets
the new value, a fresh key is appended. -/
def jsSetEntry {α : Type} (m : List (String × α)) (key : String) (v : α) :
    List (String × α) :=
  if (lookupEntry m key).isSome then
    m.map (fun p => if p.1 = key then (key, v) else p)
  else
    m ++ [(key, v)]

/-! ## JSON values -/

/-- A JSON value, the unit of storage for the persisted document
(numbers restricted to integers; no source logic depends on fractions). -/
inductive Json : Type where
  | null : Json
  | bool (b : Bool) : Json
  | num (n : Int) : Json
  | str (s : String) : Json
  | arr (elems : List Json) : Json
  | obj (fields : List (String × Json)) : Json

/-- JavaScript truthiness of a JSON value. -/
def truthy : Json → Bool
  | .null => false
  | .bool b => b
  | .num n => n ≠ 0
  | .str s => s ≠ ""
  | .arr _ => true
  | .obj _ => true

/-- JavaScript property read `j.k`: `none` models `undefined`. -/
def jsGet : Json → String → Option Json
  | .obj fields, key => lookupEntry fields key
  | _, _ => none

/-- Truthiness of a possibly-undefined value (`undefined` is falsy). -/
def truthyOpt (o : Option Json) : Bool :=
  (o.map truthy).getD false

/-- Whether a JSON value is an object carrying the given top-level key. -/
def hasField (j : Json) (key : String) : Bool :=
  (jsGet j key).isSome

/-- Spread-with-override at the JSON level: `{...j, [key]: v}` for an
object `j` (non-objects are returned unchanged; never hit by the source). -/
def jsSetField : Json → String → Json → Json
  | .obj fields, key, v => .obj (jsSetEntry fields key v)
  | j, _, _ => j

/-! ## The document data model (src/oni/types.ts) -/

/-- Todo priority (`'TOP' | 'HIGH' | 'MEDIUM' | 'LOW'`). -/
inductive Priority : Type where
  | TOP | HIGH | MEDIUM | LOW
deriving DecidableEq

/-- Journal mood (`'Happy' | 'Neutral' | 'Sad' | 'Productive' | 'Tired'`). -/
inductive Mood : Type where
  | Happy | Neutral | Sad | Productive | Tired
deriving DecidableEq

/-- Expense category enum. -/
inductive ExpenseCategory : Type where
  | Food | Transport | Shopping | Bills | Entertainment | Other
deriving DecidableEq

/-- Social post status (`'QUEUED' | 'PUBLISHED' | 'SENT'`). -/
inductive PostStatus : Type where
  | QUEUED | PUBLISHED | SENT
deriving DecidableEq

structure Todo : Type where
  id : String
  title : String
  priority : Priority
  completed : Bool
  date : String
deriving DecidableEq

/-- A habit; `logs` is the JS object mapping `YYYY-MM-DD` dates to booleans. -/
structure Habit : Type where
  id : String
  name : String
  logs : List (String × Bool)
deriving DecidableEq

structure NonNegotiable : Type where
  id : String
  title : String
deriving DecidableEq

structure JournalEntry : Type where
  id : String
  date : String
  content : String
  mood : Option Mood
  highlights : List String
  persons : List String
  images : List String
deriving DecidableEq

structure Expense : Type where
  id : String
  amount : Int
  category : ExpenseCategory
  description : String
  date : String
deriving DecidableEq

structure Milestone : Type where
  id : String
  title : String
  date : String
  completed : Bool
  description : Option String
deriving DecidableEq

structure SocialPost : Type where
  id : String
  content : String
  image : Option String
  platforms : List String
  scheduledTime : String
  status : PostStatus
deriving DecidableEq

structure Goals : Type where
  main : String
  weekly : String
deriving DecidableEq

structure UserInfo : Type where
  name : String
  profileImage : Option String
deriving DecidableEq

/-- The root document (`AppData`), one per user; `nonNegotiableLogs` is the
JS object mapping a date to the ids completed on that date. -/
structure AppData : Type where
  goals : Goals
  user : UserInfo
  nonNegotiables : List NonNegotiable
  milestones : List Milestone
  socialQueue : List SocialPost
  nonNegotiableLogs : List (String × List String)
  todos : List Todo
  habits : List Habit
  journal : List JournalEntry
  expenses : List Expense
deriving DecidableEq

/-! ## The static template (src/oni/services/dbTemplate.ts, appDataTemplate) -/

/-- `DB_TEMPLATE.appDataTemplate`: the static fresh-user document. -/
def templateAppData : AppData :=
  { goals := { main := "Build my Empire", weekly := "Complete the MVP" }
    user := { name := "User", profileImage := some "" }
    nonNegotiables :=
      [ { id := "nn1", title := "Deep Work (4h)" }
      , { id := "nn2", title := "No Sugar" } ]
    milestones :=
      [ { id := "m1", title := "System Setup", date := "2024-01-01",
          completed := true,
          description := some "Initialize the Life Tracker database." } ]
    socialQueue := []
    nonNegotiableLogs := []
    todos := []
    habits := [ { id := "h1", name := "Read 10 pages", logs := [] } ]
    journal := []
    expenses := [] }

/-! ## Mutation handlers (src/App.tsx lines 168–196) -/

/-- `toggleTodo` (src/App.tsx 168–171): flip `completed` on every todo whose
id matches, leave the rest untouched. -/
def toggleTodo (todos : List Todo) (id : String) : List Todo :=
  todos.map (fun t => if t.id = id then { t with completed := !t.completed } else t)

/-- `toggleHabit` (src/App.tsx 173–185): for the habit with the given id,
if the selected date's log is truthy delete the key, otherwise set it to
`true`. -/
def toggleHabit (habits : List Habit) (id selectedDate : String) : List Habit :=
  habits.map (fun h =>
    if h.id = id then
      let isDone := (lookupEntry h.logs selectedDate).getD false
      let newLogs :=
        if isDone then h.logs.filter (fun p => ¬(p.1 = selectedDate))
        else jsSetEntry h.logs selectedDate true
      { h with logs := newLogs }
    else h)

/-- `toggleNonNegotiable` (src/App.tsx 187–196): remove the id from the
selected date's list when present, append it when absent, and write the
list back under the date key. -/
def toggleNonNegotiable (data : AppData) (selectedDate id : String) : AppData :=
  let currentLogs := (lookupEntry data.nonNegotiableLogs selectedDate).getD []
  let newLogs :=
    if id ∈ currentLogs then currentLogs.filter (fun logId => ¬(logId = id))
    else currentLogs ++ [id]
  { data with
      nonNegotiableLogs := jsSetEntry data.nonNegotiableLogs selectedDate newLogs }

/-! ## Persistence behaviour of `updateData` (src/App.tsx 115–120, and the
oni auto-save effect in src/oni/components/JournalModal.tsx 322–327)

`updateData` stores the new document synchronously on every call
(`localStorage.setItem` in src/App.tsx; the oni variant saves from a
`useEffect` that fires after each document change).  There is no timer and
no coalescing: one whole-document save per mutation, at the mutation's
time.  `persistTrace` replays a list of timestamped mutations and records
every save the persistence layer performs. -/

/-- Replay timestamped mutations through `updateData`: each mutation is
applied to the current document and the resulting document is persisted
immediately; the returned trace lists every (time, persisted document)
save event in order. -/
def persistTrace (initial : AppData) (muts : List (Nat × (AppData → AppData))) :
    List (Nat × AppData) :=
  (muts.foldl
    (fun acc tm =>
      let next := tm.2 acc.1
      (next, acc.2 ++ [(tm.1, next)]))
    (initial, ([] : List (Nat × AppData)))).2

/-! ## Remote load (src/unnamed/part_001, StorageService.getUserData 55–79)

The Supabase row's `content` column is raw JSON, so the load path is
modelled at the `Json` level (the TypeScript `as AppData` cast performs no
runtime transformation).  The session and the `.single()` fetch outcome are
the operation's inputs. -/

/-- The active identity: `supabase.auth.getUser()`'s user, with
`user_metadata.name` possibly absent. -/
structure AuthUser : Type where
  id : String
  metadataName : Option String

/-- Outcome of the `.single()` row fetch: a row with its `content`, or an
error with its PostgREST code (`"PGRST116"` is row-not-found). -/
inductive FetchResult : Type where
  | ok (content : Json) : FetchResult
  | err (code : String) : FetchResult

/-- `{ ...DB_TEMPLATE.appDataTemplate, user: { name } }`: the template
document with the `user` object replaced wholesale. -/
def templateWithName (template : Json) (name : String) : Json :=
  jsSetField template "user" (.obj [("name", .str name)])

/-- `StorageService.getUserData`: `null` without an active identity; `null`
on a fetch error other than row-not-found; the stored `content` unchanged
when the row carries one; otherwise the template merged with the
identity's metadata name (falling back to `'User'`). -/
def getUserData (template : Json) (user : Option AuthUser) (fetch : FetchResult) :
    Option Json :=
  match user with
  | none => none
  | some u =>
    match fetch with
    | .err code =>
        if code = "PGRST116" then
          some (templateWithName template (jsOrStr u.metadataName "User"))
        else none
    | .ok content =>
        if truthy content then some content
        else some (templateWithName template (jsOrStr u.metadataName "User"))

/-! ## Export / import (src/unnamed/part_001, 140–173)

`exportDatabase` downloads `JSON.stringify(data, null, 2)` of the loaded
document; re-parsing that file yields the same JSON value, so the file's
content is modelled as the document's JSON itself.  `importDatabase`
parses the chosen file, requires `json.user` and `json.goals` to be
truthy, and saves the parsed value wholesale; any parse or validation
failure rejects without touching the remote document. -/

/-- The exported backup file's JSON content (nothing is produced when no
document could be loaded). -/
def exportDatabase (loaded : Option Json) : Option Json :=
  loaded

inductive ImportError : Type where
  | parseError : ImportError
  | invalidStructure : ImportError
deriving DecidableEq

/-- `StorageService.importDatabase` on the parse result of the selected
file (`none` models malformed JSON): validate `json.user` and `json.goals`
are truthy, then hand the parsed value to `saveUserData`. -/
def importDatabase (parsed : Option Json) : Except ImportError Json :=
  match parsed with
  | none => .error .parseError
  | some j =>
      if truthyOpt (jsGet j "user") && truthyOpt (jsGet j "goals") then .ok j
      else .error .invalidStructure

/-- The remote document after an import attempt: replaced wholesale on
success, untouched on any error. -/
def importRemote (parsed : Option Json) (remote : Option Json) : Option Json :=
  match importDatabase parsed with
  | .ok j => some j
  | .error _ => remote

/-! ## AI adapter (src/services/geminiService.ts) -/

/-- `handleError` (geminiService.ts 24–38): map the thrown error's string
to one of four human-readable category messages. -/
def handleError (msg : String) : String :=
  if jsIncludes msg "API key" || jsIncludes msg "400" || jsIncludes msg "401"
      || jsIncludes msg "403" then
    "⚠️ Configuration Error: The API Key is missing or invalid. If you are running this locally, ensure you have a `.env` file with `VITE_API_KEY=your_key` (for Vite) or `API_KEY=your_key`."
  else if jsIncludes msg "FetchError" || jsIncludes msg "Failed to fetch"
      || jsIncludes msg "Network" then
    "🌐 Connection Error: I couldn't reach the Google servers. Please check your internet connection."
  else if jsIncludes msg "429" then
    "🛑 I'm thinking too hard (Rate Limit Exceeded). Please give me a moment to cool down."
  else
    "❌ I encountered an unexpected error connecting to my brain. Please try again."

/-- A task extracted by the model (`{title, priority}`; the priority
arrives as a raw string, coerced by the caller, not the adapter). -/
structure ExtractedTask : Type where
  title : String
  priority : String
deriving DecidableEq

/-- The adapter's fixed response contract. -/
structure ChatResponse : Type where
  text : String
  tasks : List ExtractedTask
deriving DecidableEq

/-- Outcome of the provider round trip: the parsed structured response's
fields (each possibly absent), or the thrown error's string. -/
inductive AIOutcome : Type where
  | success (reply : Option String) (extractedTasks : Option (List ExtractedTask)) : AIOutcome
  | failure (err : String) : AIOutcome

/-- `chatWithAI` (geminiService.ts 41–102): on success, `jsonResponse.reply
|| "I processed your request."` and `jsonResponse.extractedTasks || []`;
on any thrown error, the categorized message with an empty task list.
Total by construction — the embedding of "never throws". -/
def chatWithAI (outcome : AIOutcome) : ChatResponse :=
  match outcome with
  | .success reply extractedTasks =>
      { text := jsOrStr reply "I processed your request."
        tasks := extractedTasks.getD [] }
  | .failure err =>
      { text := handleError err, tasks := [] }

/-! ## Object upload gateway (src/services/imageService.ts, uploadFile 17–50) -/

/-- A storage-backend failure: its message and optional HTTP status code
(the source compares `statusCode === '403'` as a string). -/
structure StorageError : Type where
  message : String
  statusCode : Option String
deriving DecidableEq

/-- Outcome of the `supabase.storage.upload` call. -/
inductive StorageOutcome : Type where
  | ok : StorageOutcome
  | err (e : StorageError) : StorageOutcome

/-- The errors `uploadFile` can surface: the distinguished RLS policy
rejection (`throw new Error("RLS_POLICY_ERROR")`) or the backend error
rethrown unchanged. -/
inductive UploadError : Type where
  | rlsPolicyError : UploadError
  | generic (e : StorageError) : UploadError
deriving DecidableEq

/-- JavaScript `s.split(sep)` for a one-character separator, on the
character list (structurally recursive so proofs can evaluate it). -/
def splitCharAux (sep : Char) : List Char → List Char → List String
  | [], acc => [⟨acc.reverse⟩]
  | ch :: rest, acc =>
      if ch = sep then ⟨acc.reverse⟩ :: splitCharAux sep rest []
      else splitCharAux sep rest (ch :: acc)

/-- JavaScript `s.split(sep)` for a one-character separator. -/
def jsSplitChar (s : String) (sep : Char) : List String :=
  splitCharAux sep s.data []

/-- The extension chosen for the uploaded object: `parts[1]` of the MIME
type split on `/` when it has one, `'jpeg'` otherwise (also when the type
is absent, i.e. the empty string). -/
def fileExtOf (mimeType : String) : String :=
  if mimeType = "" then "jpeg"
  else
    match jsSplitChar mimeType (Char.ofNat 47) with
    | _ :: ext :: _ => ext
    | _ => "jpeg"

/-- The object path `userId/timestamp_random.ext`. -/
def uploadFileName (userId ts rand mimeType : String) : String :=
  userId ++ "/" ++ ts ++ "_" ++ rand ++ "." ++ fileExtOf mimeType

/-- `getPublicUrl`: the bucket's public base followed by the object path. -/
def publicUrl (base path : String) : String :=
  base ++ path

/-- Whether the backend failure is a row-level-security (policy) rejection:
message content or the `'403'` status code. -/
def isRlsError (e : StorageError) : Bool :=
  jsIncludes e.message "row-level security" || decide (e.statusCode = some "403")

/-- `uploadFile`: on success the public URL of the namespaced object path;
on failure the distinguished policy error when `isRlsError`, the backend
error rethrown otherwise. -/
def uploadFile (userId ts rand mimeType base : String)
    (outcome : StorageOutcome) : Except UploadError String :=
  match outcome with
  | .err e =>
      if isRlsError e then .error .rlsPolicyError else .error (.generic e)
  | .ok => .ok (publicUrl base (uploadFileName userId ts rand mimeType))

/-! ## Serialization of the document (the export file format)

`JSON.stringify` followed by `JSON.parse` is the identity on JSON values,
so the export file is modelled by the document's JSON image under
`encodeAppData`.  Absent optional fields are encoded as `null`.
`decodeAppData` inverts the encoding; it witnesses that the file format
loses no field (deep equality of the re-imported document). -/

def encodePriority : Priority → Json
  | .TOP => .str "TOP"
  | .HIGH => .str "HIGH"
  | .MEDIUM => .str "MEDIUM"
  | .LOW => .str "LOW"

def decodePriority : Json → Option Priority
  | .str "TOP" => some .TOP
  | .str "HIGH" => some .HIGH
  | .str "MEDIUM" => some .MEDIUM
  | .str "LOW" => some .LOW
  | _ => none

def encodeMood : Mood → Json
  | .Happy => .str "Happy"
  | .Neutral => .str "Neutral"
  | .Sad => .str "Sad"
  | .Productive => .str "Productive"
  | .Tired => .str "Tired"

def decodeMood : Json → Option Mood
  | .str "Happy" => some .Happy
  | .str "Neutral" => some .Neutral
  | .str "Sad" => some .Sad
  | .str "Productive" => some .Productive
  | .str "Tired" => some .Tired
  | _ => none

def encodeCategory : ExpenseCategory → Json
  | .Food => .str "Food"
  | .Transport => .str "Transport"
  | .Shopping => .str "Shopping"
  | .Bills => .str "Bills"
  | .Entertainment => .str "Entertainment"
  | .Other => .str "Other"

def decodeCategory : Json → Option ExpenseCategory
  | .str "Food" => some .Food
  | .str "Transport" => some .Transport
  | .str "Shopping" => some .Shopping
  | .str "Bills" => some .Bills
  | .str "Entertainment" => some .Entertainment
  | .str "Other" => some .Other
  | _ => none

def encodeStatus : PostStatus → Json
  | .QUEUED => .str "QUEUED"
  | .PUBLISHED => .str "PUBLISHED"
  | .SENT => .str "SENT"

def decodeStatus : Json → Option PostStatus
  | .str "QUEUED" => some .QUEUED
  | .str "PUBLISHED" => some .PUBLISHED
  | .str "SENT" => some .SENT
  | _ => none

def encodeOptStr : Option String → Json
  | some s => .str s
  | none => .null

def decodeOptStr : Json → Option (Option String)
  | .str s => some (some s)
  | .null => some none
  | _ => none

def encodeOptMood : Option Mood → Json
  | some m => encodeMood m
  | none => .null

def decodeOptMood : Json → Option (Option Mood)
  | .null => some none
  | j => (decodeMood j).map some

/-- Decode every element of a JSON array, failing if any element fails. -/
def decodeAll {α : Type} (dec : Json → Option α) : List Json → Option (List α)
  | [] => some []
  | x :: xs =>
    match dec x with
    | some a => (decodeAll dec xs).map (fun rest => a :: rest)
    | none => none

/-- Decode every value of a JSON object's field list, keeping the keys. -/
def decodeEntries {α : Type} (dec : Json → Option α) :
    List (String × Json) → Option (List (String × α))
  | [] => some []
  | (k, v) :: rest =>
    match dec v with
    | some a => (decodeEntries dec rest).map (fun tl => (k, a) :: tl)
    | none => none

def decodeStrList : Json → Option (List String)
  | .arr xs => decodeAll (fun j => match j with | .str s => some s | _ => none) xs
  | _ => none

def encodeStrList (l : List String) : Json :=
  .arr (l.map .str)

def encodeGoals (g : Goals) : Json :=
  .obj [("main", .str g.main), ("weekly", .str g.weekly)]

def decodeGoals : Json → Option Goals
  | .obj [("main", .str m), ("weekly", .str w)] => some ⟨m, w⟩
  | _ => none

def encodeUser (u : UserInfo) : Json :=
  .obj [("name", .str u.name), ("profileImage", encodeOptStr u.profileImage)]

def decodeUser : Json → Option UserInfo
  | .obj [("name", .str n), ("profileImage", pi)] =>
      (decodeOptStr pi).map (fun img => ⟨n, img⟩)
  | _ => none

def encodeNonNegotiable (nn : NonNegotiable) : Json :=
  .obj [("id", .str nn.id), ("title", .str nn.title)]

def decodeNonNegotiable : Json → Option NonNegotiable
  | .obj [("id", .str i), ("title", .str t)] => some ⟨i, t⟩
  | _ => none

def encodeMilestone (m : Milestone) : Json :=
  .obj [("id", .str m.id), ("title", .str m.title), ("date", .str m.date),
        ("completed", .bool m.completed),
        ("description", encodeOptStr m.description)]

def decodeMilestone : Json → Option Milestone
  | .obj [("id", .str i), ("title", .str t), ("date", .str d),
          ("completed", .bool c), ("description", desc)] =>
      (decodeOptStr desc).map (fun ds => ⟨i, t, d, c, ds⟩)
  | _ => none

def encodeSocialPost (p : SocialPost) : Json :=
  .obj [("id", .str p.id), ("content", .str p.content),
        ("image", encodeOptStr p.image), ("platforms", encodeStrList p.platforms),
        ("scheduledTime", .str p.scheduledTime), ("status", encodeStatus p.status)]

def decodeSocialPost : Json → Option SocialPost
  | .obj [("id", .str i), ("content", .str c), ("image", img),
          ("platforms", pf), ("scheduledTime", .str st), ("status", s)] => do
      let image ← decodeOptStr img
      let platforms ← decodeStrList pf
      let status ← decodeStatus s
      some ⟨i, c, image, platforms, st, status⟩
  | _ => none

def encodeTodo (t : Todo) : Json :=
  .obj [("id", .str t.id), ("title", .str t.title),
        ("priority", encodePriority t.priority),
        ("completed", .bool t.completed), ("date", .str t.date)]

def decodeTodo : Json → Option Todo
  | .obj [("id", .str i), ("title", .str ti), ("priority", p),
          ("completed", .bool c), ("date", .str d)] =>
      (decodePriority p).map (fun pr => ⟨i, ti, pr, c, d⟩)
  | _ => none

def encodeHabit (h : Habit) : Json :=
  .obj [("id", .str h.id), ("name", .str h.name),
        ("logs", .obj (h.logs.map (fun p => (p.1, Json.bool p.2))))]

def decodeHabit : Json → Option Habit
  | .obj [("id", .str i), ("name", .str n), ("logs", .obj entries)] =>
      (decodeEntries (fun j => match j with | .bool b => some b | _ => none)
          entries).map (fun logs => ⟨i, n, logs⟩)
  | _ => none

def encodeJournalEntry (e : JournalEntry) : Json :=
  .obj [("id", .str e.id), ("date", .str e.date), ("content", .str e.content),
        ("mood", encodeOptMood e.mood), ("highlights", encodeStrList e.highlights),
        ("persons", encodeStrList e.persons), ("images", encodeStrList e.images)]

def decodeJournalEntry : Json → Option JournalEntry
  | .obj [("id", .str i), ("date", .str d), ("content", .str c), ("mood", m),
          ("highlights", hs), ("persons", ps), ("images", imgs)] => do
      let mood ← decodeOptMood m
      let highlights ← decodeStrList hs
      let persons ← decodeStrList ps
      let images ← decodeStrList imgs
      some ⟨i, d, c, mood, highlights, persons, images⟩
  | _ => none

def encodeExpense (e : Expense) : Json :=
  .obj [("id", .str e.id), ("amount", .num e.amount),
        ("category", encodeCategory e.category),
        ("description", .str e.description), ("date", .str e.date)]

def decodeExpense : Json → Option Expense
  | .obj [("id", .str i), ("amount", .num a), ("category", c),
          ("description", .str ds), ("date", .str d)] =>
      (decodeCategory c).map (fun cat => ⟨i, a, cat, ds, d⟩)
  | _ => none

/-- The document's JSON image: the top-level fields in the template's
layout order. -/
def encodeAppData (d : AppData) : Json :=
  .obj [ ("goals", encodeGoals d.goals)
       , ("user", encodeUser d.user)
       , ("nonNegotiables", .arr (d.nonNegotiables.map encodeNonNegotiable))
       , ("milestones", .arr (d.milestones.map encodeMilestone))
       , ("socialQueue", .arr (d.socialQueue.map encodeSocialPost))
       , ("nonNegotiableLogs",
            .obj (d.nonNegotiableLogs.map (fun p => (p.1, encodeStrList p.2))))
       , ("todos", .arr (d.todos.map encodeTodo))
       , ("habits", .arr (d.habits.map encodeHabit))
       , ("journal", .arr (d.journal.map encodeJournalEntry))
       , ("expenses", .arr (d.expenses.map encodeExpense)) ]

/-- Inverse of `encodeAppData`. -/
def decodeAppData : Json → Option AppData
  | .obj [ ("goals", g), ("user", u), ("nonNegotiables", nn),
           ("milestones", ms), ("socialQueue", sq), ("nonNegotiableLogs", .obj nnl),
           ("todos", ts), ("habits", hs), ("journal", js), ("expenses", es) ] => do
      let goals ← decodeGoals g
      let user ← decodeUser u
      let nonNegotiables ← match nn with
        | .arr xs => decodeAll decodeNonNegotiable xs
        | _ => none
      let milestones ← match ms with
        | .arr xs => decodeAll decodeMilestone xs
        | _ => none
      let socialQueue ← match sq with
        | .arr xs => decodeAll decodeSocialPost xs
        | _ => none
      let nonNegotiableLogs ← decodeEntries decodeStrList nnl
      let todos ← match ts with
        | .arr xs => decodeAll decodeTodo xs
        | _ => none
      let habits ← match hs with
        | .arr xs => decodeAll decodeHabit xs
        | _ => none
      let journal ← match js with
        | .arr xs => decodeAll decodeJournalEntry xs
        | _ => none
      let expenses ← match es with
        | .arr xs => decodeAll decodeExpense xs
        | _ => none
      some ⟨goals, user, nonNegotiables, milestones, socialQueue,
            nonNegotiableLogs, todos, habits, journal, expenses⟩
  | _ => none

/-- The template document's JSON image, the value stored for a fresh user. -/
def dbTemplateJson : Json :=
  encodeAppData templateAppData

/-! ## Helper lemmas on the JS-object model -/

theorem lookupEntry_filter_ne {α : Type} (m : List (String × α)) (key : String) :
    lookupEntry (m.filter (fun p => ¬(p.1 = key))) key = none := by
  induction m with
  | nil => rfl
  | cons p rest ih =>
    obtain ⟨k, a⟩ := p
    by_cases h : k = key
    · rw [List.filter_cons_of_neg (by simp [h])]
      exact ih
    · rw [List.filter_cons_of_pos (by simp [h])]
      simpa [lookupEntry, h, decide_not] using ih

theorem lookupEntry_map_replace {α : Type} (m : List (String × α)) (key : String)
    (v : α) (hs : (lookupEntry m key).isSome = true) :
    lookupEntry (m.map (fun p => if p.1 = key then (key, v) else p)) key = some v := by
  induction m with
  | nil => simp [lookupEntry] at hs
  | cons p rest ih =>
    obtain ⟨k, a⟩ := p
    simp only [List.map_cons]
    split_ifs with h
    · simp [lookupEntry]
    · have hrest : (lookupEntry rest key).isSome = true := by
        simpa [lookupEntry, h] using hs
      simp [lookupEntry, h, ih hrest]

theorem lookupEntry_append_new {α : Type} (m : List (String × α)) (key : String)
    (v : α) (hs : lookupEntry m key = none) :
    lookupEntry (m ++ [(key, v)]) key = some v := by
  induction m with
  | nil => simp [lookupEntry]
  | cons p rest ih =>
    obtain ⟨k, a⟩ := p
    by_cases h : k = key
    · simp [lookupEntry, h] at hs
    · have hrest : lookupEntry rest key = none := by
        simpa [lookupEntry, h] using hs
      simp [lookupEntry, h, ih hrest]

theorem lookupEntry_jsSetEntry_self {α : Type} (m : List (String × α))
    (key : String) (v : α) :
    lookupEntry (jsSetEntry m key v) key = some v := by
  unfold jsSetEntry
  by_cases hs : (lookupEntry m key).isSome = true
  · rw [if_pos hs]
    exact lookupEntry_map_replace m key v hs
  · rw [if_neg hs]
    exact lookupEntry_append_new m key v (Option.not_isSome_iff_eq_none.mp hs)

theorem jsSetEntry_values {α : Type} (m : List (String × α)) (key : String)
    (v : α) (P : α → Prop) (hm : ∀ p ∈ m, P p.2) (hv : P v) :
    ∀ p ∈ jsSetEntry m key v, P p.2 := by
  intro p hp
  unfold jsSetEntry at hp
  by_cases hs : (lookupEntry m key).isSome = true
  · rw [if_pos hs] at hp
    rcases List.mem_map.mp hp with ⟨q, hq, rfl⟩
    by_cases h : q.1 = key
    · simpa [h] using hv
    · simpa [h] using hm q hq
  · rw [if_neg hs] at hp
    rcases List.mem_append.mp hp with hp | hp
    · exact hm p hp
    · rcases List.mem_singleton.mp hp with rfl
      exact hv

/-! ## Round-trip lemmas for the serialization -/

theorem decodeAll_encode {α : Type} (dec : Json → Option α) (enc : α → Json)
    (h : ∀ a, dec (enc a) = some a) (l : List α) :
    decodeAll dec (l.map enc) = some l := by
  induction l with
  | nil => rfl
  | cons a rest ih => simp [decodeAll, h, ih]

theorem decodeEntries_encode {α : Type} (dec : Json → Option α) (enc : α → Json)
    (h : ∀ a, dec (enc a) = some a) (l : List (String × α)) :
    decodeEntries dec (l.map (fun p => (p.1, enc p.2))) = some l := by
  induction l with
  | nil => rfl
  | cons p rest ih => simp [decodeEntries, h, ih]

theorem decodePriority_encode (p : Priority) :
    decodePriority (encodePriority p) = some p := by
  cases p <;> rfl

theorem decodeMood_encode (m : Mood) : decodeMood (encodeMood m) = some m := by
  cases m <;> rfl

theorem decodeCategory_encode (c : ExpenseCategory) :
    decodeCategory (encodeCategory c) = some c := by
  cases c <;> rfl

theorem decodeStatus_encode (s : PostStatus) :
    decodeStatus (encodeStatus s) = some s := by
  cases s <;> rfl

theorem decodeOptStr_encode (o : Option String) :
    decodeOptStr (encodeOptStr o) = some o := by
  cases o <;> rfl

theorem decodeOptMood_encode (o : Option Mood) :
    decodeOptMood (encodeOptMood o) = some o := by
  cases o with
  | none => rfl
  | some m => cases m <;> rfl

theorem decodeStrList_encode (l : List String) :
    decodeStrList (encodeStrList l) = some l := by
  induction l with
  | nil => rfl
  | cons a rest ih => simpa [encodeStrList, decodeStrList, decodeAll] using ih

theorem decodeGoals_encode (g : Goals) : decodeGoals (encodeGoals g) = some g := by
  cases g
  rfl

theorem decodeUser_encode (u : UserInfo) : decodeUser (encodeUser u) = some u := by
  cases u with
  | mk n img => simp [encodeUser, decodeUser, decodeOptStr_encode]

theorem decodeNonNegotiable_encode (nn : NonNegotiable) :
    decodeNonNegotiable (encodeNonNegotiable nn) = some nn := by
  cases nn
  rfl

theorem decodeMilestone_encode (m : Milestone) :
    decodeMilestone (encodeMilestone m) = some m := by
  cases m with
  | mk i t d c ds => simp [encodeMilestone, decodeMilestone, decodeOptStr_encode]

theorem decodeSocialPost_encode (p : SocialPost) :
    decodeSocialPost (encodeSocialPost p) = some p := by
  cases p with
  | mk i c img pf st s =>
    simp [encodeSocialPost, decodeSocialPost, decodeOptStr_encode,
      decodeStrList_encode, decodeStatus_encode]

theorem decodeTodo_encode (t : Todo) : decodeTodo (encodeTodo t) = some t := by
  cases t with
  | mk i ti pr c d => simp [encodeTodo, decodeTodo, decodePriority_encode]

theorem decodeHabit_encode (h : Habit) : decodeHabit (encodeHabit h) = some h := by
  cases h with
  | mk i n logs =>
    have hl := decodeEntries_encode
      (fun j => match j with | .bool b => some b | _ => none) Json.bool
      (fun b => rfl) logs
    simp [encodeHabit, decodeHabit, hl]

theorem decodeJournalEntry_encode (e : JournalEntry) :
    decodeJournalEntry (encodeJournalEntry e) = some e := by
  cases e with
  | mk i d c m hs ps imgs =>
    simp [encodeJournalEntry, decodeJournalEntry, decodeOptMood_encode,
      decodeStrList_encode]

theorem decodeExpense_encode (e : Expense) :
    decodeExpense (encodeExpense e) = some e := by
  cases e with
  | mk i a c ds d => simp [encodeExpense, decodeExpense, decodeCategory_encode]

set_option maxHeartbeats 1600000 in
/-- No top-level field and no nested value is lost by the export file
format: decoding the encoded document restores it exactly. -/
theorem decodeAppData_encode (d : AppData) :
    decodeAppData (encodeAppData d) = some d := by
  cases d with
  | mk g u nn ms sq nnl ts hs js es =>
    simp [encodeAppData, decodeAppData, decodeGoals_encode, decodeUser_encode,
      decodeAll_encode _ _ decodeNonNegotiable_encode,
      decodeAll_encode _ _ decodeMilestone_encode,
      decodeAll_encode _ _ decodeSocialPost_encode,
      decodeEntries_encode _ _ decodeStrList_encode,
      decodeAll_encode _ _ decodeTodo_encode,
      decodeAll_encode _ _ decodeHabit_encode,
      decodeAll_encode _ _ decodeJournalEntry_encode,
      decodeAll_encode _ _ decodeExpense_encode]

/-! ## Concrete fixtures -/

/-- A stored document from an older schema: only `user` and `goals`
top-level fields, no `todos`, `habits`, `visionBoard`, … -/
def legacyDoc : Json :=
  .obj [ ("user", .obj [("name", .str "Bea")])
       , ("goals", .obj [("main", .str "Old main"), ("weekly", .str "Old weekly")]) ]

/-! ## Claim C1 — migration-on-read -/

/-- C1, counterexample: the claim says a stored document missing top-level
fields of the current schema is loaded with every missing field filled
from the template.  The code returns the stored `content` verbatim: the
legacy document (which lacks `todos`, a template field, and `visionBoard`)
is handed back still lacking them — and the static template itself has no
`visionBoard` default either. -/
theorem getUserData_no_migration_counterexample :
    getUserData dbTemplateJson (some ⟨"uid-1", some "Bea"⟩) (.ok legacyDoc)
      = some legacyDoc ∧
    hasField legacyDoc "todos" = false ∧
    hasField dbTemplateJson "todos" = true ∧
    hasField legacyDoc "visionBoard" = false ∧
    hasField dbTemplateJson "visionBoard" = false :=
  ⟨rfl, rfl, rfl, rfl, rfl⟩

/-- C1, amended: the load operation performs no migration-on-read — every
stored document with truthy content is returned exactly as stored, missing
top-level fields included; template defaults are used only on the
new-user (row-not-found) path. -/
theorem getUserData_returns_stored_unchanged (template : Json) (u : AuthUser)
    (content : Json) (h : truthy content = true) :
    getUserData template (some u) (.ok content) = some content := by
  simp [getUserData, h]

theorem getUserData_returns_stored_unchanged_witness :
    truthy legacyDoc = true ∧
    getUserData dbTemplateJson (some ⟨"uid-1", some "Bea"⟩) (.ok legacyDoc)
      = some legacyDoc :=
  ⟨rfl, getUserData_returns_stored_unchanged dbTemplateJson ⟨"uid-1", some "Bea"⟩
      legacyDoc rfl⟩

/-! ## Claim C9 — NotAuthenticated vs document-not-found -/

/-- C9, counterexample: the claim says load fails exactly when no identity
is active.  With an active identity and a fetch error whose code is not
the row-not-found code, `getUserData` also fails (returns `null`), and the
failure is indistinguishable from the unauthenticated one. -/
theorem getUserData_db_error_counterexample :
    getUserData dbTemplateJson (some ⟨"uid-2", some "Ava"⟩) (.err "500") = none ∧
    (some (⟨"uid-2", some "Ava"⟩ : AuthUser)).isSome = true :=
  ⟨rfl, rfl⟩

/-- C9, amended: load returns `null` (an undifferentiated failure, not a
distinguished `NotAuthenticated` error) when no identity is active and
also when the fetch fails with a code other than row-not-found; the
row-not-found case does not fail and returns the template merged with the
identity's metadata name (so `todos` is the template's `[]` and `habits`
the template's default). -/
theorem getUserData_auth_and_notfound_spec (u : AuthUser) (fetch : FetchResult)
    (code : String) (hc : ¬(code = "PGRST116")) :
    getUserData dbTemplateJson none fetch = none ∧
    getUserData dbTemplateJson (some u) (.err code) = none ∧
    getUserData dbTemplateJson (some u) (.err "PGRST116")
      = some (templateWithName dbTemplateJson (jsOrStr u.metadataName "User")) ∧
    ((getUserData dbTemplateJson (some u) (.err "PGRST116")).bind
        (fun d => jsGet d "user"))
      = some (.obj [("name", .str (jsOrStr u.metadataName "User"))]) ∧
    ((getUserData dbTemplateJson (some u) (.err "PGRST116")).bind
        (fun d => jsGet d "todos")) = some (.arr []) ∧
    ((getUserData dbTemplateJson (some u) (.err "PGRST116")).bind
        (fun d => jsGet d "habits")) = jsGet dbTemplateJson "habits" := by
  refine ⟨rfl, ?_, rfl, rfl, rfl, rfl⟩
  simp [getUserData, hc]

theorem getUserData_auth_and_notfound_spec_witness :
    ¬(("500" : String) = "PGRST116") ∧
    ((getUserData dbTemplateJson (some ⟨"uid-9", some "Ava"⟩) (.err "PGRST116")).bind
        (fun d => jsGet d "user")) = some (.obj [("name", .str "Ava")]) := by
  refine ⟨by decide, ?_⟩
  have h := (getUserData_auth_and_notfound_spec ⟨"uid-9", some "Ava"⟩
      (.err "500") "500" (by decide)).2.2.2.1
  simpa [jsOrStr] using h

/-! ## Claim C2 — debounced persistence coalescing -/

/-- First sample mutation: replace the main goal with "A". -/
def mutA : AppData → AppData :=
  fun d => { d with goals := { main := "A", weekly := d.goals.weekly } }

/-- Second sample mutation: replace the main goal with "B". -/
def mutB : AppData → AppData :=
  fun d => { d with goals := { main := "B", weekly := d.goals.weekly } }

/-- C2, counterexample: the claim says mutations at t=0 and t=500 with a
1500 ms debounce produce exactly one upsert at ≈2000 ms carrying the
t=500 state, never persisting intermediate states.  `updateData` has no
debounce timer: it persists synchronously on every call, so this run
performs two saves, at t=0 and t=500, and the intermediate (t=0) document
state is persisted. -/
theorem debounce_coalescing_counterexample :
    (persistTrace templateAppData [(0, mutA), (500, mutB)]).length = 2 ∧
    (persistTrace templateAppData [(0, mutA), (500, mutB)]).map Prod.fst
      = [0, 500] ∧
    (persistTrace templateAppData [(0, mutA), (500, mutB)]).map Prod.snd
      = [mutA templateAppData, mutB (mutA templateAppData)] :=
  ⟨rfl, rfl, rfl⟩

/-- C2, amended: persistence is immediate and per-mutation — two mutations
at t=0 and t=500 produce exactly two whole-document saves, one at each
mutation time; the first carries the state as of t=0 (an intermediate
state) and the second the state as of t=500 (the latest state). -/
theorem persistTrace_immediate_per_mutation (initial : AppData)
    (f g : AppData → AppData) (t1 t2 : Nat) :
    persistTrace initial [(t1, f), (t2, g)]
      = [(t1, f initial), (t2, g (f initial))] :=
  rfl

/-! ## Claim C3 — AI chat failure contract -/

/-- C3: `chatWithAI` is total (the embedding of "never throws, never
returns undefined"); its reply text is never empty, and on any failure it
returns the categorized human-readable message with an empty task list. -/
theorem chatWithAI_failure_contract (err : String) (outcome : AIOutcome) :
    (chatWithAI (.failure err)).tasks = [] ∧
    (chatWithAI (.failure err)).text = handleError err ∧
    ¬(handleError err = "") ∧
    ¬((chatWithAI outcome).text = "") := by
  refine ⟨rfl, rfl, ?_, ?_⟩
  · unfold handleError
    split_ifs <;> decide
  · cases outcome with
    | failure e =>
      show ¬(handleError e = "")
      unfold handleError
      split_ifs <;> decide
    | success reply tasks =>
      show ¬(jsOrStr reply "I processed your request." = "")
      cases reply with
      | none => decide
      | some s =>
        unfold jsOrStr
        by_cases h : s = ""
        · simp [h]
        · simp [h]

/-! ## Claim C8 — upload failure classification and success URL -/

/-- C8: a storage failure that mentions row-level security or carries the
string status code `'403'` surfaces as the distinguished policy error;
every other failure is rethrown as-is and is a different value from the
policy error; on success the returned URL is the public base followed by
the owner-id-namespaced path, whose extension is derived from the MIME
type and defaults to `jpeg` when the type is absent. -/
theorem uploadFile_spec (userId ts rand mimeType base : String)
    (e : StorageError) :
    (isRlsError e = true →
        uploadFile userId ts rand mimeType base (.err e)
          = .error .rlsPolicyError) ∧
    (isRlsError e = false →
        uploadFile userId ts rand mimeType base (.err e)
          = .error (.generic e)) ∧
    (∀ e2 : StorageError, ¬(UploadError.generic e2 = UploadError.rlsPolicyError)) ∧
    uploadFile userId ts rand mimeType base .ok
      = .ok (base ++ (userId ++ "/" ++ ts ++ "_" ++ rand ++ "." ++ fileExtOf mimeType)) ∧
    fileExtOf "" = "jpeg" ∧
    fileExtOf "image/png" = "png" ∧
    fileExtOf "image/webp" = "webp" := by
  refine ⟨?_, ?_, ?_, rfl, rfl, rfl, rfl⟩
  · intro h
    simp [uploadFile, h]
  · intro h
    simp [uploadFile, h]
  · intro e2 hcontra
    cases hcontra

theorem uploadFile_spec_witness :
    isRlsError { message := "new row violates row-level security policy",
                 statusCode := none } = true ∧
    uploadFile "user1" "1700000000000" "ab12cd" "image/png" "https://cdn.example/"
        (.err { message := "new row violates row-level security policy",
                statusCode := none })
      = .error .rlsPolicyError := by
  refine ⟨by decide, ?_⟩
  exact (uploadFile_spec "user1" "1700000000000" "ab12cd" "image/png"
      "https://cdn.example/"
      { message := "new row violates row-level security policy",
        statusCode := none }).1 (by decide)

/-! ## Claim C4 — toggling a non-negotiable -/

/-- C4: with the selected date's completed set free of duplicates, toggling
a non-negotiable id removes it (via filter) when present and appends it
when absent, and the resulting set is again duplicate-free. -/
theorem toggleNonNegotiable_spec (data : AppData) (selectedDate id : String)
    (h : ((lookupEntry data.nonNegotiableLogs selectedDate).getD []).Nodup) :
    ((id ∈ (lookupEntry data.nonNegotiableLogs selectedDate).getD []) →
      (lookupEntry (toggleNonNegotiable data selectedDate id).nonNegotiableLogs
          selectedDate).getD []
        = ((lookupEntry data.nonNegotiableLogs selectedDate).getD []).filter
            (fun logId => ¬(logId = id)) ∧
      id ∉ (lookupEntry (toggleNonNegotiable data selectedDate id).nonNegotiableLogs
          selectedDate).getD []) ∧
    ((id ∉ (lookupEntry data.nonNegotiableLogs selectedDate).getD []) →
      (lookupEntry (toggleNonNegotiable data selectedDate id).nonNegotiableLogs
          selectedDate).getD []
        = ((lookupEntry data.nonNegotiableLogs selectedDate).getD []) ++ [id] ∧
      id ∈ (lookupEntry (toggleNonNegotiable data selectedDate id).nonNegotiableLogs
          selectedDate).getD []) ∧
    ((lookupEntry (toggleNonNegotiable data selectedDate id).nonNegotiableLogs
        selectedDate).getD []).Nodup := by
  have hres : (lookupEntry (toggleNonNegotiable data selectedDate id).nonNegotiableLogs
      selectedDate).getD []
      = (if id ∈ (lookupEntry data.nonNegotiableLogs selectedDate).getD [] then
          ((lookupEntry data.nonNegotiableLogs selectedDate).getD []).filter
            (fun logId => ¬(logId = id))
        else ((lookupEntry data.nonNegotiableLogs selectedDate).getD []) ++ [id]) := by
    simp only [toggleNonNegotiable]
    rw [lookupEntry_jsSetEntry_self]
    rfl
  by_cases hid : id ∈ (lookupEntry data.nonNegotiableLogs selectedDate).getD []
  · rw [hres, if_pos hid]
    refine ⟨fun _ => ⟨rfl, ?_⟩, fun hno => absurd hid hno, ?_⟩
    · simp [List.mem_filter]
    · exact h.filter _
  · rw [hres, if_neg hid]
    refine ⟨fun hyes => absurd hyes hid, fun _ => ⟨rfl, ?_⟩, ?_⟩
    · simp
    · simp [List.nodup_append, h, hid]

/-- The document used to exercise `toggleNonNegotiable` concretely. -/
def docNN : AppData :=
  { templateAppData with nonNegotiableLogs := [("2024-01-02", ["nn1"])] }

theorem toggleNonNegotiable_spec_witness :
    ((lookupEntry docNN.nonNegotiableLogs "2024-01-02").getD []).Nodup ∧
    ((lookupEntry (toggleNonNegotiable docNN "2024-01-02" "nn1").nonNegotiableLogs
        "2024-01-02").getD []).Nodup :=
  ⟨by decide, (toggleNonNegotiable_spec docNN "2024-01-02" "nn1" (by decide)).2.2⟩

/-! ## Claim C5 — toggling a todo -/

theorem toggleTodo_involutive (todos : List Todo) (id : String) :
    toggleTodo (toggleTodo todos id) id = todos := by
  induction todos with
  | nil => rfl
  | cons t rest ih =>
    obtain ⟨ti, tt, tp, tc, td⟩ := t
    by_cases ht : ti = id
    · simpa [toggleTodo, ht] using ih
    · simpa [toggleTodo, ht] using ih

theorem toggleTodo_frame (todos : List Todo) (id : String) :
    List.Forall₂ (fun t u =>
      u.id = t.id ∧ u.title = t.title ∧ u.priority = t.priority ∧
      u.date = t.date ∧ (¬(t.id = id) → u = t) ∧
      (t.id = id → u.completed = !t.completed))
      todos (toggleTodo todos id) := by
  unfold toggleTodo
  rw [List.forall₂_map_right_iff, List.forall₂_same]
  intro t ht
  obtain ⟨ti, tt, tp, tc, td⟩ := t
  by_cases h : ti = id
  · simp [h]
  · simp [h]

/-- C5: toggling a todo twice restores the original list, and a single
toggle preserves list length and order, changes only the `completed` flag
of todos with the matching id, and leaves every other todo untouched. -/
theorem toggleTodo_spec (todos : List Todo) (id : String)
    (h : id ∈ todos.map Todo.id) :
    toggleTodo (toggleTodo todos id) id = todos ∧
    List.Forall₂ (fun t u =>
      u.id = t.id ∧ u.title = t.title ∧ u.priority = t.priority ∧
      u.date = t.date ∧ (¬(t.id = id) → u = t) ∧
      (t.id = id → u.completed = !t.completed))
      todos (toggleTodo todos id) :=
  ⟨toggleTodo_involutive todos id, toggleTodo_frame todos id⟩

/-- The scenario todo list: one todo {title: "Ship spec", priority: TOP,
date: "2024-06-01"}. -/
def todosShip : List Todo :=
  [{ id := "1", title := "Ship spec", priority := .TOP, completed := false,
     date := "2024-06-01" }]

theorem toggleTodo_spec_witness :
    "1" ∈ todosShip.map Todo.id ∧
    toggleTodo (toggleTodo todosShip "1") "1" = todosShip :=
  ⟨by decide, (toggleTodo_spec todosShip "1" (by decide)).1⟩

/-! ## Claim C10 — habit logs never store an explicit `false` -/

theorem lookupEntry_mem {α : Type} {m : List (String × α)} {k : String} {v : α}
    (h : lookupEntry m k = some v) : (k, v) ∈ m := by
  induction m with
  | nil => simp [lookupEntry] at h
  | cons p rest ih =>
    obtain ⟨k1, a⟩ := p
    by_cases hk : k1 = k
    · subst hk
      have hav : a = v := by simpa [lookupEntry] using h
      subst hav
      exact List.mem_cons_self _ _
    · simp only [lookupEntry, if_neg hk] at h
      exact List.mem_cons_of_mem _ (ih h)

/-- C10: if every habit's logs hold only `true` values, toggling any habit
preserves that invariant (switching off deletes the date key rather than
storing `false`, switching on stores `true`), and the toggle touches only
the matching habit. -/
theorem toggleHabit_spec (habits : List Habit) (id selectedDate : String)
    (hall : ∀ h ∈ habits, ∀ p ∈ h.logs, p.2 = true) :
    (∀ h ∈ toggleHabit habits id selectedDate, ∀ p ∈ h.logs, p.2 = true) ∧
    List.Forall₂ (fun h u =>
      u.id = h.id ∧ u.name = h.name ∧
      (¬(h.id = id) → u = h) ∧
      (h.id = id →
        ((lookupEntry h.logs selectedDate).isSome = true →
            u.logs = h.logs.filter (fun p => ¬(p.1 = selectedDate)) ∧
            lookupEntry u.logs selectedDate = none) ∧
        (lookupEntry h.logs selectedDate = none →
            lookupEntry u.logs selectedDate = some true)))
      habits (toggleHabit habits id selectedDate) := by
  constructor
  · intro h hmem
    unfold toggleHabit at hmem
    rcases List.mem_map.mp hmem with ⟨g, hg, rfl⟩
    by_cases hid : g.id = id
    · rw [if_pos hid]
      by_cases hdone : (lookupEntry g.logs selectedDate).getD false = true
      · simp only [hdone, if_pos]
        intro p hp
        exact hall g hg p (List.mem_of_mem_filter hp)
      · simp only [eq_false_of_ne_true hdone, if_neg, Bool.false_eq_true,
          not_false_eq_true]
        exact jsSetEntry_values g.logs selectedDate true (fun b => b = true)
          (hall g hg) rfl
    · rw [if_neg hid]
      exact hall g hg
  · unfold toggleHabit
    rw [List.forall₂_map_right_iff, List.forall₂_same]
    intro g hg
    by_cases hid : g.id = id
    · rw [if_pos hid]
      refine ⟨rfl, rfl, fun hn => absurd hid hn, fun _ => ⟨?_, ?_⟩⟩
      · intro hsome
        rcases Option.isSome_iff_exists.mp hsome with ⟨v, hv⟩
        have hv1 : v = true := hall g hg (selectedDate, v) (lookupEntry_mem hv)
        subst hv1
        have hdone : (lookupEntry g.logs selectedDate).getD false = true := by
          rw [hv]
          rfl
        refine ⟨?_, ?_⟩
        · simp [hdone]
        · simp only [hdone, if_pos]
          exact lookupEntry_filter_ne g.logs selectedDate
      · intro hnone
        have hdone : (lookupEntry g.logs selectedDate).getD false = false := by
          rw [hnone]
          rfl
        simp only [hdone, Bool.false_eq_true, if_neg, not_false_eq_true]
        exact lookupEntry_jsSetEntry_self g.logs selectedDate true
    · rw [if_neg hid]
      exact ⟨rfl, rfl, fun _ => rfl, fun hy => absurd hy hid⟩

/-- The habit list used to exercise `toggleHabit` concretely. -/
def habitsWater : List Habit :=
  [{ id := "h1", name := "Drink Water", logs := [("2024-06-01", true)] }]

theorem toggleHabit_spec_witness :
    (∀ h ∈ habitsWater, ∀ p ∈ h.logs, p.2 = true) ∧
    (∀ h ∈ toggleHabit habitsWater "h1" "2024-06-01", ∀ p ∈ h.logs, p.2 = true) :=
  ⟨by decide, (toggleHabit_spec habitsWater "h1" "2024-06-01" (by decide)).1⟩

/-! ## Claim C6 — export-then-import round trip -/

/-- C6: importing the file produced by exporting a document succeeds and
stores exactly the exported JSON; decoding that JSON restores the original
document field for field, so the re-imported remote document is
deep-equal to the exported one. -/
theorem export_import_roundtrip (d : AppData) :
    importDatabase (exportDatabase (some (encodeAppData d)))
      = .ok (encodeAppData d) ∧
    importRemote (exportDatabase (some (encodeAppData d))) none
      = some (encodeAppData d) ∧
    decodeAppData (encodeAppData d) = some d := by
  have hu : truthyOpt (jsGet (encodeAppData d) "user") = true := by
    simp [encodeAppData, jsGet, lookupEntry, truthyOpt, encodeUser, truthy]
  have hg : truthyOpt (jsGet (encodeAppData d) "goals") = true := by
    simp [encodeAppData, jsGet, lookupEntry, truthyOpt, encodeGoals, truthy]
  have himp : importDatabase (some (encodeAppData d)) = .ok (encodeAppData d) := by
    simp [importDatabase, hu, hg]
  refine ⟨himp, ?_, decodeAppData_encode d⟩
  simp [importRemote, exportDatabase, himp]

/-! ## Claim C7 — import validation and atomicity -/

/-- An import file that parses as JSON and has both a `user` and a `goals`
top-level field, but whose `user` value is `null` (falsy). -/
def invalidImportFile : Json :=
  .obj [ ("user", .null)
       , ("goals", .obj [("main", .str "g"), ("weekly", .str "w")]) ]

/-- C7, counterexample: the claim says import succeeds exactly when the
file parses and has both a `user` and a `goals` field.  This file has both
fields, yet the code's truthiness check (`!json.user`) rejects it with the
invalid-structure error and leaves the remote document untouched. -/
theorem importDatabase_falsy_field_counterexample :
    hasField invalidImportFile "user" = true ∧
    hasField invalidImportFile "goals" = true ∧
    importDatabase (some invalidImportFile) = .error .invalidStructure ∧
    importRemote (some invalidImportFile) (some dbTemplateJson)
      = some dbTemplateJson :=
  ⟨rfl, rfl, rfl, rfl⟩

/-- C7, amended: import succeeds (and then replaces the remote document
wholesale with the parsed file) exactly when the file parses as JSON and
both the `user` and the `goals` fields are present with truthy values;
malformed JSON fails with a parse error, a missing or falsy field with the
invalid-structure error, and on every error the remote document is
unchanged. -/
theorem importDatabase_spec (parsed : Option Json) (remote : Option Json) :
    ((∃ j, importDatabase parsed = .ok j) ↔
      (∃ j, parsed = some j ∧ truthyOpt (jsGet j "user") = true ∧
        truthyOpt (jsGet j "goals") = true)) ∧
    (∀ j, importDatabase parsed = .ok j →
        parsed = some j ∧ importRemote parsed remote = some j) ∧
    (importDatabase none = .error .parseError) ∧
    (∀ e, importDatabase parsed = .error e → importRemote parsed remote = remote) := by
  cases parsed with
  | none =>
    refine ⟨?_, ?_, rfl, ?_⟩
    · simp [importDatabase]
    · intro j hj
      simp [importDatabase] at hj
    · intro e he
      simp [importRemote, importDatabase]
  | some j =>
    by_cases hc : (truthyOpt (jsGet j "user") && truthyOpt (jsGet j "goals")) = true
    · rcases Bool.and_eq_true_iff.mp hc with ⟨hcu, hcg⟩
      refine ⟨?_, ?_, rfl, ?_⟩
      · simp only [importDatabase, hc, if_pos]
        exact ⟨fun _ => ⟨j, rfl, hcu, hcg⟩, fun _ => ⟨j, rfl⟩⟩
      · intro k hk
        simp only [importDatabase, hc, if_pos, Except.ok.injEq] at hk
        subst hk
        refine ⟨rfl, ?_⟩
        simp [importRemote, importDatabase, hc]
      · intro e he
        simp [importDatabase, hc] at he
    · refine ⟨?_, ?_, rfl, ?_⟩
      · simp only [importDatabase, hc, if_neg, Bool.not_eq_true]
        constructor
        · rintro ⟨k, hk⟩
          cases hk
        · rintro ⟨k, hk, hku, hkg⟩
          injection hk with hjk
          subst hjk
          exact absurd (by simp [hku, hkg]) hc
      · intro k hk
        simp [importDatabase, hc] at hk
      · intro e he
        simp [importRemote, importDatabase, hc]

theorem importDatabase_spec_witness :
    importDatabase (some legacyDoc) = .ok legacyDoc ∧
    importRemote (some legacyDoc) none = some legacyDoc :=
  ⟨rfl, ((importDatabase_spec (some legacyDoc) none).2.1 legacyDoc rfl).2⟩
